import Mathlib

/-!
# Verification of the str1ker analytical inverse-kinematics solver

Shallow embedding of the `str1ker::IKPlugin` inverse-kinematics solver
(`src/unnamed/part_001`, the revision of `src/src/ik.cpp` that implements the
reachability-envelope clamping, together with the divergent mount-angle formula
of `src/src/ik.cpp`).

Modelling conventions:
* IEEE doubles are modelled as `Option ℚ` (`DReal`): `none` stands for NaN,
  `some q` for an ordinary value.  Division by zero is modelled as NaN.
* The transcendental functions (`atan2`, `acos` on its domain, `sqrt`, the
  recovery of a joint variable from an angle-axis transform performed by
  `computeVariablePositions`, and the constant `π`) are fields of an
  uninterpreted oracle structure `Trig`; every theorem is proved for all
  oracles, so it holds in particular for the IEEE functions.  `acos` applied
  outside `[-1, 1]` yields NaN, as IEEE `acos` does.
* Joints are listed in `m_joints` order; the C++ code recovers a joint's index
  with `find(m_joints.begin(), m_joints.end(), pJoint)`, which the embedding
  replaces by carrying the index directly.  A mimic relation stores the index
  of the master joint.
-/

namespace Str1ker

/-- An IEEE double: `none` is NaN, `some q` an ordinary value. -/
abbrev DReal := Option ℚ

/-- `std::clamp(v, lo, hi)`: `v < lo ? lo : (hi < v ? hi : v)`. -/
def rclamp (v lo hi : ℚ) : ℚ :=
  if v < lo then lo else if hi < v then hi else v

/-- `std::clamp` lifted to doubles; NaN compares false, so clamp of NaN is NaN. -/
def dclamp (v : DReal) (lo hi : ℚ) : DReal :=
  v.map fun q => rclamp q lo hi

/-- A 3-vector of doubles (all claims feed it ordinary values, so components are ℚ). -/
structure Vec3 where
  x : ℚ
  y : ℚ
  z : ℚ
deriving DecidableEq, Repr

instance : Inhabited Vec3 := ⟨⟨0, 0, 0⟩⟩

/-- Componentwise difference, `Eigen::Vector3d` subtraction. -/
def Vec3.sub (a b : Vec3) : Vec3 := ⟨a.x - b.x, a.y - b.y, a.z - b.z⟩

/-- Oracle for the transcendental functions used by the solver.  `cvp` models
`JointModel::computeVariablePositions` recovering the joint variable from the
transform `AngleAxisd(angle, axis)` built about the joint's own axis. -/
structure Trig where
  atan2 : ℚ → ℚ → ℚ
  acosVal : ℚ → ℚ
  sqrtVal : ℚ → ℚ
  cvp : ℚ → ℚ
  pi : ℚ

/-- IEEE `acos`: NaN outside `[-1, 1]` (and NaN on NaN input). -/
def Trig.acosD (o : Trig) (v : DReal) : DReal :=
  v.bind fun q => if -1 ≤ q ∧ q ≤ 1 then some (o.acosVal q) else none

/-- `Eigen::Vector3d::norm()` via the sqrt oracle (the argument is a sum of
squares, hence in the oracle's domain). -/
def Vec3.norm (o : Trig) (v : Vec3) : ℚ :=
  o.sqrtVal (v.x * v.x + v.y * v.y + v.z * v.z)

/-- `IKPlugin::getAngle(x, y) = atan2(y, x)`. -/
def getAngle (o : Trig) (x y : ℚ) : ℚ := o.atan2 y x

/-- The law-of-cosines argument `(a*a + b*b - c*c) / (2*a*b)` as the source
computes it (no clamping anywhere in `IKPlugin::lawOfCosines`). -/
def lawOfCosinesArg (a b c : ℚ) : ℚ :=
  (a * a + b * b - c * c) / (2 * a * b)

/-- `IKPlugin::lawOfCosines(a, b, c) = acos((a*a + b*b - c*c) / (2*a*b))`.
The division with zero denominator produces infinity or NaN in IEEE arithmetic
and `acos` of either is NaN, so the embedding returns NaN there. -/
def lawOfCosines (o : Trig) (a b c : ℚ) : DReal :=
  if 2 * a * b = 0 then none else o.acosD (some (lawOfCosinesArg a b c))

/-- `moveit_msgs::JointLimits`: the position bounds used by the solver. -/
structure JointLimits where
  min_position : ℚ
  max_position : ℚ
deriving DecidableEq, Repr

/-- One joint of `m_joints`: its limits and, when it is a mimic, the index of
its master joint in `m_joints` with the affine `factor`/`offset` parameters. -/
structure Joint where
  limits : JointLimits
  mimicMaster : Option Nat
  mimicFactor : ℚ
  mimicOffset : ℚ
deriving DecidableEq, Repr

instance : Inhabited Joint := ⟨⟨⟨0, 0⟩, none, 0, 0⟩⟩

/-- A joint chain, in `m_joints` enumeration order. -/
abbrev Chain := List Joint

/-- One iteration of the loop
`for (auto pMimicJoint : pMasterJoint->getMimicRequests())` of
`IKPlugin::setJointState`: when the joint at `s` mimics `mIdx` and is not the
driving joint `jIdx`, its slot receives
`clamp(masterState * factor + offset, its limits)`. -/
def mimicStep (chain : Chain) (jIdx mIdx : Nat) (masterState : DReal)
    (st : List DReal) (s : Nat) : List DReal :=
  let sj := chain.getD s default
  if s ≠ jIdx ∧ sj.mimicMaster = some mIdx then
    st.set s
      (dclamp (masterState.map fun m => m * sj.mimicFactor + sj.mimicOffset)
        sj.limits.min_position sj.limits.max_position)
  else st

/-- The whole sibling-update loop of `IKPlugin::setJointState`, run over every
joint of `m_joints`. -/
def mimicPropagate (chain : Chain) (jIdx mIdx : Nat) (masterState : DReal)
    (states : List DReal) : List DReal :=
  (List.range chain.length).foldl (mimicStep chain jIdx mIdx masterState) states

/-- The raw master state `(jointState - getMimicOffset()) / getMimicFactor()`
computed by `IKPlugin::setJointState` for a mimic joint.  A zero factor makes
the IEEE division produce an infinity or NaN, and every later use of it goes
through `acos`/`clamp`-free paths that keep it non-ordinary, so it is
modelled as NaN. -/
def mimicRaw (chain : Chain) (jIdx : Nat) (jointState : ℚ) : DReal :=
  if (chain.getD jIdx default).mimicFactor = 0 then none
  else some ((jointState - (chain.getD jIdx default).mimicOffset) /
    (chain.getD jIdx default).mimicFactor)

/-- The `if (pJoint->getMimic())` block of `IKPlugin::setJointState`
(`src/unnamed/part_001`): the master's slot gets the raw inverse-affine value
`(state - offset) / factor` (written unclamped, `// temp` in the source), and
every other mimic of that master gets `clamp(clampedMaster * factor + offset,
its limits)`. -/
def applyMimic (chain : Chain) (jIdx : Nat) (jointState : ℚ)
    (states1 : List DReal) : List DReal :=
  match (chain.getD jIdx default).mimicMaster with
  | none => states1
  | some mIdx =>
    let m := chain.getD mIdx default
    let masterStateRaw := mimicRaw chain jIdx jointState
    let states2 := states1.set mIdx masterStateRaw
    let masterState :=
      dclamp masterStateRaw m.limits.min_position m.limits.max_position
    mimicPropagate chain jIdx mIdx masterState states2

/-- `IKPlugin::setJointState` of `src/unnamed/part_001`:
a NaN angle returns immediately without writing; otherwise the joint's own slot
gets the clamped recovered variable and the mimic block runs. -/
def setJointState (o : Trig) (chain : Chain) (jIdx : Nat) (angle : DReal)
    (states : List DReal) : List DReal :=
  match angle with
  | none => states
  | some a =>
    let j := chain.getD jIdx default
    let jointState := o.cvp a
    applyMimic chain jIdx jointState
      (states.set jIdx
        (some (rclamp jointState j.limits.min_position j.limits.max_position)))

/-- `IKPlugin::setJointMinState`: writes the joint's `min_position` into its
slot.  No mimic propagation is performed. -/
def setJointMinState (chain : Chain) (jIdx : Nat) (states : List DReal) :
    List DReal :=
  states.set jIdx (some (chain.getD jIdx default).limits.min_position)

/-- `IKPlugin::setJointMaxState`: writes the joint's `max_position` into its
slot.  No mimic propagation is performed. -/
def setJointMaxState (chain : Chain) (jIdx : Nat) (states : List DReal) :
    List DReal :=
  states.set jIdx (some (chain.getD jIdx default).limits.max_position)

/-- A target pose; the solver reads only the translation. -/
structure Pose where
  px : ℚ
  py : ℚ
  pz : ℚ
deriving DecidableEq, Repr

instance : Inhabited Pose := ⟨⟨0, 0, 0⟩⟩

/-- The solver configuration fixed at plugin initialization time plus the kinematic
snapshot read at the start of a solve call: the joint chain, the indices of the
mount/shoulder/elbow/wrist joints in `m_joints`, the number of stored tip
frames, the shoulder link's world translation, the cached `m_upperArm` and
`m_forearm` segment vectors, and the per-call `getLinkLength` results
`shoulderToEffector` and `wristToEffector`. -/
structure Config where
  chain : Chain
  mountIdx : Nat
  shoulderIdx : Nat
  elbowIdx : Nat
  wristIdx : Nat
  tipCount : Nat
  shoulderWorld : Vec3
  upperArm : Vec3
  forearm : Vec3
  shoulderToEffector : Vec3
  wristToEffector : Vec3

/-- `moveit_msgs::MoveItErrorCodes::SUCCESS`. -/
def SUCCESS : Int := 1

/-- `moveit_msgs::MoveItErrorCodes::NO_IK_SOLUTION`. -/
def NO_IK_SOLUTION : Int := -31

/-- The observable outcome of `searchPositionIK`: the boolean return value,
the error code written into `error_code.val`, and the caller's solution
vector after the call. -/
structure SolveResult where
  success : Bool
  errorCode : Int
  solution : List DReal
deriving DecidableEq

/-- `IKPlugin::validateSeedState`: the seed must have one entry per supported
joint. -/
def validateSeedState (cfg : Config) (seed : List DReal) : Prop :=
  seed.length = cfg.chain.length

instance (cfg : Config) (seed : List DReal) :
    Decidable (validateSeedState cfg seed) := by
  unfold validateSeedState; infer_instance

/-- `IKPlugin::validateTarget`: exactly one pose, and as many tip frames as
poses. -/
def validateTarget (cfg : Config) (poses : List Pose) : Prop :=
  poses.length = 1 ∧ cfg.tipCount = poses.length

instance (cfg : Config) (poses : List Pose) :
    Decidable (validateTarget cfg poses) := by
  unfold validateTarget; infer_instance

/-- Modelled from the spec: the constants `MIN` and `MAX` of the missing header
`include/ik.h` are only used through `MIN.norm()` and `MAX.norm()`; per spec
§4.2 the reachable envelope is `reachableMax = |upperArm| + |forearm| −
wristOffset` and `reachableMin = |upperArm| − |forearm| …` (before the wrist
offset is subtracted), so `MAX.norm()` is `|upperArm| + |forearm|`. -/
def maxNormSpec (o : Trig) (cfg : Config) : ℚ :=
  cfg.upperArm.norm o + cfg.forearm.norm o

/-- Modelled from the spec: `MIN.norm()` is `|upperArm| − |forearm|`; see
`maxNormSpec`. -/
def minNormSpec (o : Trig) (cfg : Config) : ℚ :=
  cfg.upperArm.norm o - cfg.forearm.norm o

/-- `getTarget(ik_poses).translation()`: the translation of `ik_poses.back()`. -/
def targetWorldOf (poses : List Pose) : Vec3 :=
  let back := poses.getD (poses.length - 1) default
  ⟨back.px, back.py, back.pz⟩

/-- `targetLocal = targetWorld - shoulderWorld`. -/
def targetLocalOf (cfg : Config) (poses : List Pose) : Vec3 :=
  (targetWorldOf poses).sub cfg.shoulderWorld

/-- `mountAngle = getAngle(targetLocal.x(), targetLocal.y())`. -/
def mountAngleOf (o : Trig) (cfg : Config) (poses : List Pose) : ℚ :=
  getAngle o (targetLocalOf cfg poses).x (targetLocalOf cfg poses).y

/-- `mountOffset = getAngle(shoulderToEffector.x(), shoulderToEffector.y())`. -/
def mountOffsetOf (o : Trig) (cfg : Config) : ℚ :=
  getAngle o cfg.shoulderToEffector.x cfg.shoulderToEffector.y

/-- `targetNorm = targetLocal.norm()`. -/
def targetNormOf (o : Trig) (cfg : Config) (poses : List Pose) : ℚ :=
  (targetLocalOf cfg poses).norm o

/-- `reachableMaxNorm = maxNorm - wristNorm`. -/
def reachableMaxNormOf (o : Trig) (cfg : Config) : ℚ :=
  maxNormSpec o cfg - cfg.wristToEffector.norm o

/-- `reachableMinNorm = minNorm - wristNorm`. -/
def reachableMinNormOf (o : Trig) (cfg : Config) : ℚ :=
  minNormSpec o cfg - cfg.wristToEffector.norm o

/-- The in-reach shoulder command:
`lawOfCosines(upperArmNorm, forearmNorm, reachableNorm) - M_PI / 2.0`. -/
def shoulderAngleOf (o : Trig) (cfg : Config) (poses : List Pose) : DReal :=
  let reachableNorm := rclamp (targetNormOf o cfg poses)
    (reachableMinNormOf o cfg) (reachableMaxNormOf o cfg)
  (lawOfCosines o (cfg.upperArm.norm o) (cfg.forearm.norm o) reachableNorm).map
    fun q => q - o.pi / 2

/-- `IKPlugin::searchPositionIK` of `src/unnamed/part_001` (the full overload
taking a pose list).  Marker publishing and logging are I/O with no effect on
the result and are omitted; the dead locals `targetAngle` and `elbowAngle` of
the in-reach branch (computed but never used) are omitted likewise. -/
def searchPositionIK (o : Trig) (cfg : Config) (poses : List Pose)
    (seed : List DReal) (solutionIn : List DReal) : SolveResult :=
  if ¬(validateSeedState cfg seed ∧ validateTarget cfg poses) then
    { success := false, errorCode := NO_IK_SOLUTION, solution := solutionIn }
  else
    let solution := seed
    let solution1 := setJointState o cfg.chain cfg.mountIdx
      (some (mountAngleOf o cfg poses - mountOffsetOf o cfg)) solution
    if targetNormOf o cfg poses > reachableMaxNormOf o cfg then
      let solution2 := setJointMaxState cfg.chain cfg.shoulderIdx solution1
      let solution3 := setJointMaxState cfg.chain cfg.elbowIdx solution2
      { success := true, errorCode := SUCCESS, solution := solution3 }
    else if targetNormOf o cfg poses < reachableMinNormOf o cfg then
      let solution2 := setJointMinState cfg.chain cfg.shoulderIdx solution1
      let solution3 := setJointMinState cfg.chain cfg.elbowIdx solution2
      { success := true, errorCode := SUCCESS, solution := solution3 }
    else
      let solution2 := setJointState o cfg.chain cfg.shoulderIdx
        (shoulderAngleOf o cfg poses) solution1
      { success := true, errorCode := SUCCESS, solution := solution2 }

/-- The mount command of the older revision `src/src/ik.cpp`:
`mountAngle - mountReference - mountOffset` with
`mountOffset = getAngle(shoulderToEffector) - mountReference`. -/
def mountCommandIkCpp (o : Trig) (targetOffset upperArm shoulderToEffector :
    Vec3) : ℚ :=
  let mountAngle := getAngle o targetOffset.x targetOffset.y
  let mountReference := getAngle o upperArm.x upperArm.y
  let mountOffset :=
    getAngle o shoulderToEffector.x shoulderToEffector.y - mountReference
  mountAngle - mountReference - mountOffset

/-- The entry of a joint-state vector at index `i` (NaN when out of range;
only used at in-range indices). -/
def slotAt (states : List DReal) (i : Nat) : DReal :=
  states.getD i none

/-- The value `v` is an ordinary (non-NaN) value inside the joint's
`[min_position, max_position]` interval. -/
def inLimits (j : Joint) (v : DReal) : Prop :=
  match v with
  | none => False
  | some q => j.limits.min_position ≤ q ∧ q ≤ j.limits.max_position

instance (j : Joint) (v : DReal) : Decidable (inLimits j v) := by
  unfold inLimits; cases v <;> infer_instance

/-- Boolean test: writing joint `jIdx` through `setJointState` may touch slot
`i` through the mimic machinery (the master slot of `jIdx`, or a sibling slot
mimicking the same master). -/
def mimicTouchedB (chain : Chain) (jIdx i : Nat) : Bool :=
  match (chain.getD jIdx default).mimicMaster with
  | none => false
  | some mIdx =>
    i = mIdx ∨ (chain.getD i default).mimicMaster = some mIdx

/-- Propositional form of `mimicTouchedB`. -/
def mimicTouched (chain : Chain) (jIdx i : Nat) : Prop :=
  mimicTouchedB chain jIdx i = true

instance (chain : Chain) (jIdx i : Nat) :
    Decidable (mimicTouched chain jIdx i) := by
  unfold mimicTouched; infer_instance

/-- A concrete oracle used to exercise the solver on closed inputs: `sqrt` and
the variable recovery are the identity, the other entries are zero. -/
def trigW : Trig :=
  { atan2 := fun _ _ => 0
    acosVal := fun q => q
    sqrtVal := fun q => q
    cvp := fun a => a
    pi := 0 }

/-- A concrete mimic-free four-joint chain (mount, shoulder, elbow, wrist). -/
def chainW : Chain :=
  [ { limits := ⟨-10, 10⟩, mimicMaster := none, mimicFactor := 0, mimicOffset := 0 }
  , { limits := ⟨0, 2⟩, mimicMaster := none, mimicFactor := 0, mimicOffset := 0 }
  , { limits := ⟨-1, 3⟩, mimicMaster := none, mimicFactor := 0, mimicOffset := 0 }
  , { limits := ⟨-5, 5⟩, mimicMaster := none, mimicFactor := 0, mimicOffset := 0 } ]

/-- A concrete configuration over `chainW`; all cached geometry is zero, so
with `trigW` the reachable envelope collapses to `[0, 0]` and any nonzero
target is out of reach. -/
def cfgW : Config :=
  { chain := chainW
    mountIdx := 0
    shoulderIdx := 1
    elbowIdx := 2
    wristIdx := 3
    tipCount := 1
    shoulderWorld := ⟨0, 0, 0⟩
    upperArm := ⟨0, 0, 0⟩
    forearm := ⟨0, 0, 0⟩
    shoulderToEffector := ⟨0, 0, 0⟩
    wristToEffector := ⟨0, 0, 0⟩ }

/-- A concrete chain with a mimic pair: joint 0 and joint 1 both mimic the
master joint 2. -/
def chainM : Chain :=
  [ { limits := ⟨-10, 10⟩, mimicMaster := some 2, mimicFactor := 2, mimicOffset := 1 }
  , { limits := ⟨0, 5⟩, mimicMaster := some 2, mimicFactor := 3, mimicOffset := 1 }
  , { limits := ⟨-4, 4⟩, mimicMaster := none, mimicFactor := 0, mimicOffset := 0 } ]

/-- A concrete chain for the mimic-propagation counterexample: the shoulder
(index 1) mimics the wrist joint (index 3). -/
def chainC7 : Chain :=
  [ { limits := ⟨-10, 10⟩, mimicMaster := none, mimicFactor := 0, mimicOffset := 0 }
  , { limits := ⟨0, 2⟩, mimicMaster := some 3, mimicFactor := 1, mimicOffset := 0 }
  , { limits := ⟨-1, 3⟩, mimicMaster := none, mimicFactor := 0, mimicOffset := 0 }
  , { limits := ⟨-5, 5⟩, mimicMaster := none, mimicFactor := 0, mimicOffset := 0 } ]

/-- `cfgW` with the mimic chain `chainC7`. -/
def cfgC7 : Config :=
  { cfgW with chain := chainC7 }

/-! ## Helper lemmas -/

theorem rclamp_mem (v lo hi : ℚ) (h : lo ≤ hi) :
    lo ≤ rclamp v lo hi ∧ rclamp v lo hi ≤ hi := by
  unfold rclamp; split_ifs <;> constructor <;> linarith

theorem rclamp_eq_self (v lo hi : ℚ) (h1 : lo ≤ v) (h2 : v ≤ hi) :
    rclamp v lo hi = v := by
  unfold rclamp; split_ifs <;> linarith

theorem mimicStep_length (chain : Chain) (jIdx mIdx : Nat) (ms : DReal)
    (st : List DReal) (s : Nat) :
    (mimicStep chain jIdx mIdx ms st s).length = st.length := by
  simp only [mimicStep]; split <;> simp

theorem mimicStep_getElem_ne (chain : Chain) (jIdx mIdx : Nat) (ms : DReal)
    (st : List DReal) (s i : Nat) (h : i ≠ s) :
    (mimicStep chain jIdx mIdx ms st s)[i]? = st[i]? := by
  simp only [mimicStep]; split
  · exact List.getElem?_set_ne (Ne.symm h)
  · rfl

theorem foldl_mimicStep_length (chain : Chain) (jIdx mIdx : Nat) (ms : DReal)
    (L : List Nat) :
    ∀ st : List DReal,
      (L.foldl (mimicStep chain jIdx mIdx ms) st).length = st.length := by
  induction L with
  | nil => intro st; rfl
  | cons a L ih =>
    intro st
    simp only [List.foldl_cons]
    rw [ih, mimicStep_length]

theorem foldl_mimicStep_untouched (chain : Chain) (jIdx mIdx : Nat)
    (ms : DReal) (L : List Nat) :
    ∀ (st : List DReal) (i : Nat),
      (i ∉ L ∨
        ¬(i ≠ jIdx ∧ (chain.getD i default).mimicMaster = some mIdx)) →
      (L.foldl (mimicStep chain jIdx mIdx ms) st)[i]? = st[i]? := by
  induction L with
  | nil => intro st i _; rfl
  | cons a L ih =>
    intro st i h
    simp only [List.foldl_cons]
    by_cases hai : i = a
    · subst hai
      have hcond : ¬(i ≠ jIdx ∧ (chain.getD i default).mimicMaster = some mIdx) := by
        rcases h with h | h
        · exact absurd (List.mem_cons_self i L) h
        · exact h
      have hid : mimicStep chain jIdx mIdx ms st i = st := by
        simp only [mimicStep]; rw [if_neg hcond]
      rw [hid]
      exact ih st i (Or.inr hcond)
    · have h' : i ∉ L ∨
          ¬(i ≠ jIdx ∧ (chain.getD i default).mimicMaster = some mIdx) := by
        rcases h with h | h
        · exact Or.inl fun hm => h (List.mem_cons_of_mem a hm)
        · exact Or.inr h
      rw [ih (mimicStep chain jIdx mIdx ms st a) i h',
        mimicStep_getElem_ne chain jIdx mIdx ms st a i hai]

theorem foldl_mimicStep_write (chain : Chain) (jIdx mIdx : Nat) (ms : DReal)
    (L : List Nat) :
    ∀ (st : List DReal) (i : Nat), L.Nodup → i ∈ L → i < st.length →
      (i ≠ jIdx ∧ (chain.getD i default).mimicMaster = some mIdx) →
      (L.foldl (mimicStep chain jIdx mIdx ms) st)[i]? =
        some (dclamp (ms.map fun m =>
            m * (chain.getD i default).mimicFactor +
              (chain.getD i default).mimicOffset)
          (chain.getD i default).limits.min_position
          (chain.getD i default).limits.max_position) := by
  induction L with
  | nil => intro st i _ hmem; exact absurd hmem (List.not_mem_nil i)
  | cons a L ih =>
    intro st i hnd hmem hlen hcond
    simp only [List.foldl_cons]
    by_cases hai : i = a
    · subst hai
      have hni : i ∉ L := (List.nodup_cons.mp hnd).1
      have hw : mimicStep chain jIdx mIdx ms st i =
          st.set i (dclamp (ms.map fun m =>
              m * (chain.getD i default).mimicFactor +
                (chain.getD i default).mimicOffset)
            (chain.getD i default).limits.min_position
            (chain.getD i default).limits.max_position) := by
        unfold mimicStep; rw [if_pos hcond]
      rw [foldl_mimicStep_untouched chain jIdx mIdx ms L _ i (Or.inl hni), hw,
        List.getElem?_set_self hlen]
    · have hmem' : i ∈ L := by
        rcases List.mem_cons.mp hmem with h | h
        · exact absurd h hai
        · exact h
      have hlen' : i < (mimicStep chain jIdx mIdx ms st a).length := by
        rw [mimicStep_length]; exact hlen
      exact ih (mimicStep chain jIdx mIdx ms st a) i
        (List.nodup_cons.mp hnd).2 hmem' hlen' hcond

theorem mimicPropagate_length (chain : Chain) (jIdx mIdx : Nat) (ms : DReal)
    (st : List DReal) :
    (mimicPropagate chain jIdx mIdx ms st).length = st.length :=
  foldl_mimicStep_length chain jIdx mIdx ms (List.range chain.length) st

theorem mimicPropagate_untouched (chain : Chain) (jIdx mIdx : Nat)
    (ms : DReal) (st : List DReal) (i : Nat)
    (h : ¬(i ≠ jIdx ∧ (chain.getD i default).mimicMaster = some mIdx)) :
    (mimicPropagate chain jIdx mIdx ms st)[i]? = st[i]? :=
  foldl_mimicStep_untouched chain jIdx mIdx ms (List.range chain.length) st i
    (Or.inr h)

theorem mimicPropagate_write (chain : Chain) (jIdx mIdx : Nat) (ms : DReal)
    (st : List DReal) (i : Nat) (hchain : i < chain.length)
    (hlen : i < st.length)
    (hcond : i ≠ jIdx ∧ (chain.getD i default).mimicMaster = some mIdx) :
    (mimicPropagate chain jIdx mIdx ms st)[i]? =
      some (dclamp (ms.map fun m =>
          m * (chain.getD i default).mimicFactor +
            (chain.getD i default).mimicOffset)
        (chain.getD i default).limits.min_position
        (chain.getD i default).limits.max_position) :=
  foldl_mimicStep_write chain jIdx mIdx ms (List.range chain.length) st i
    (List.nodup_range chain.length) (List.mem_range.mpr hchain) hlen hcond

theorem applyMimic_none_master (chain : Chain) (jIdx : Nat) (q : ℚ)
    (st : List DReal) (h : (chain.getD jIdx default).mimicMaster = none) :
    applyMimic chain jIdx q st = st := by
  unfold applyMimic; rw [h]

theorem applyMimic_some_master (chain : Chain) (jIdx mIdx : Nat) (q : ℚ)
    (st : List DReal)
    (h : (chain.getD jIdx default).mimicMaster = some mIdx) :
    applyMimic chain jIdx q st =
      mimicPropagate chain jIdx mIdx
        (dclamp (mimicRaw chain jIdx q)
          (chain.getD mIdx default).limits.min_position
          (chain.getD mIdx default).limits.max_position)
        (st.set mIdx (mimicRaw chain jIdx q)) := by
  unfold applyMimic; rw [h]

theorem applyMimic_length (chain : Chain) (jIdx : Nat) (q : ℚ)
    (st : List DReal) : (applyMimic chain jIdx q st).length = st.length := by
  cases hm : (chain.getD jIdx default).mimicMaster with
  | none => rw [applyMimic_none_master chain jIdx q st hm]
  | some mIdx =>
    rw [applyMimic_some_master chain jIdx mIdx q st hm,
      mimicPropagate_length, List.length_set]

theorem applyMimic_untouched (chain : Chain) (jIdx : Nat) (q : ℚ)
    (st : List DReal) (i : Nat) (h : ¬mimicTouched chain jIdx i) :
    (applyMimic chain jIdx q st)[i]? = st[i]? := by
  cases hm : (chain.getD jIdx default).mimicMaster with
  | none => rw [applyMimic_none_master chain jIdx q st hm]
  | some mIdx =>
    have hb : ¬(i = mIdx ∨ (chain.getD i default).mimicMaster = some mIdx) := by
      intro hor
      apply h
      unfold mimicTouched mimicTouchedB
      rw [hm]
      simpa using hor
    push_neg at hb
    rw [applyMimic_some_master chain jIdx mIdx q st hm,
      mimicPropagate_untouched chain jIdx mIdx _ _ i (by tauto),
      List.getElem?_set_ne (Ne.symm hb.1)]

theorem setJointState_none (o : Trig) (chain : Chain) (jIdx : Nat)
    (st : List DReal) : setJointState o chain jIdx none st = st := rfl

theorem setJointState_some (o : Trig) (chain : Chain) (jIdx : Nat) (a : ℚ)
    (st : List DReal) :
    setJointState o chain jIdx (some a) st =
      applyMimic chain jIdx (o.cvp a)
        (st.set jIdx (some (rclamp (o.cvp a)
          (chain.getD jIdx default).limits.min_position
          (chain.getD jIdx default).limits.max_position))) := rfl

theorem setJointState_length (o : Trig) (chain : Chain) (jIdx : Nat)
    (a : DReal) (st : List DReal) :
    (setJointState o chain jIdx a st).length = st.length := by
  cases a with
  | none => rfl
  | some a => rw [setJointState_some, applyMimic_length, List.length_set]

theorem setJointState_untouched (o : Trig) (chain : Chain) (jIdx : Nat)
    (a : DReal) (st : List DReal) (i : Nat) (hne : i ≠ jIdx)
    (hmt : ¬mimicTouched chain jIdx i) :
    (setJointState o chain jIdx a st)[i]? = st[i]? := by
  cases a with
  | none => rfl
  | some a =>
    rw [setJointState_some, applyMimic_untouched chain jIdx _ _ i hmt,
      List.getElem?_set_ne (Ne.symm hne)]

theorem setJointMinState_getElem_ne (chain : Chain) (jIdx : Nat)
    (st : List DReal) (i : Nat) (h : i ≠ jIdx) :
    (setJointMinState chain jIdx st)[i]? = st[i]? :=
  List.getElem?_set_ne (Ne.symm h)

theorem setJointMaxState_getElem_ne (chain : Chain) (jIdx : Nat)
    (st : List DReal) (i : Nat) (h : i ≠ jIdx) :
    (setJointMaxState chain jIdx st)[i]? = st[i]? :=
  List.getElem?_set_ne (Ne.symm h)

theorem setJointMinState_getElem_self (chain : Chain) (jIdx : Nat)
    (st : List DReal) (h : jIdx < st.length) :
    (setJointMinState chain jIdx st)[jIdx]? =
      some (some (chain.getD jIdx default).limits.min_position) :=
  List.getElem?_set_self h

theorem setJointMaxState_getElem_self (chain : Chain) (jIdx : Nat)
    (st : List DReal) (h : jIdx < st.length) :
    (setJointMaxState chain jIdx st)[jIdx]? =
      some (some (chain.getD jIdx default).limits.max_position) :=
  List.getElem?_set_self h

theorem setJointMinState_length (chain : Chain) (jIdx : Nat)
    (st : List DReal) : (setJointMinState chain jIdx st).length = st.length :=
  List.length_set st jIdx _

theorem setJointMaxState_length (chain : Chain) (jIdx : Nat)
    (st : List DReal) : (setJointMaxState chain jIdx st).length = st.length :=
  List.length_set st jIdx _

theorem getD_mimicMaster_none (chain : Chain)
    (h : ∀ j ∈ chain, j.mimicMaster = none) (jIdx : Nat) :
    (chain.getD jIdx default).mimicMaster = none := by
  by_cases hj : jIdx < chain.length
  · rw [List.getD_eq_getElem chain default hj]
    exact h _ (List.getElem_mem hj)
  · rw [List.getD_eq_default chain default (le_of_not_lt hj)]
    rfl

theorem not_mimicTouched_of_no_mimic (chain : Chain)
    (h : ∀ j ∈ chain, j.mimicMaster = none) (jIdx i : Nat) :
    ¬mimicTouched chain jIdx i := by
  unfold mimicTouched mimicTouchedB
  rw [getD_mimicMaster_none chain h jIdx]
  simp

theorem setJointState_no_mimic (o : Trig) (chain : Chain) (jIdx : Nat)
    (a : ℚ) (st : List DReal)
    (h : (chain.getD jIdx default).mimicMaster = none) :
    setJointState o chain jIdx (some a) st =
      st.set jIdx (some (rclamp (o.cvp a)
        (chain.getD jIdx default).limits.min_position
        (chain.getD jIdx default).limits.max_position)) := by
  rw [setJointState_some, applyMimic_none_master chain jIdx _ _ h]

theorem slotAt_congr (a b : List DReal) (i : Nat) (h : a[i]? = b[i]?) :
    slotAt a i = slotAt b i := by
  simp [slotAt, List.getD_eq_getElem?_getD, h]

theorem slotAt_of_getElem (st : List DReal) (i : Nat) (v : DReal)
    (h : st[i]? = some v) : slotAt st i = v := by
  simp [slotAt, List.getD_eq_getElem?_getD, h]

theorem getElem_set_or (l : List DReal) (j : Nat) (v : DReal) (i : Nat) :
    (l.set j v)[i]? = l[i]? ∨ (l.set j v)[i]? = some v := by
  by_cases h : i = j
  · subst h
    by_cases hl : i < l.length
    · exact Or.inr (List.getElem?_set_self hl)
    · rw [List.set_eq_of_length_le (le_of_not_lt hl)]
      exact Or.inl rfl
  · exact Or.inl (List.getElem?_set_ne (Ne.symm h))

theorem inLimits_rclamp (j : Joint) (v : ℚ)
    (h : j.limits.min_position ≤ j.limits.max_position) :
    inLimits j (some (rclamp v j.limits.min_position j.limits.max_position)) :=
  rclamp_mem v _ _ h

theorem inLimits_max (j : Joint)
    (h : j.limits.min_position ≤ j.limits.max_position) :
    inLimits j (some j.limits.max_position) :=
  ⟨h, le_refl _⟩

theorem inLimits_min (j : Joint)
    (h : j.limits.min_position ≤ j.limits.max_position) :
    inLimits j (some j.limits.min_position) :=
  ⟨le_refl _, h⟩

theorem getD_limits_le (chain : Chain)
    (h : ∀ j ∈ chain, j.limits.min_position ≤ j.limits.max_position)
    (i : Nat) (hi : i < chain.length) :
    (chain.getD i default).limits.min_position ≤
      (chain.getD i default).limits.max_position := by
  rw [List.getD_eq_getElem chain default hi]
  exact h _ (List.getElem_mem hi)

theorem searchPositionIK_invalid (o : Trig) (cfg : Config) (poses : List Pose)
    (seed solutionIn : List DReal)
    (h : ¬(validateSeedState cfg seed ∧ validateTarget cfg poses)) :
    searchPositionIK o cfg poses seed solutionIn =
      { success := false, errorCode := NO_IK_SOLUTION,
        solution := solutionIn } := by
  unfold searchPositionIK
  rw [if_pos h]

theorem searchPositionIK_far (o : Trig) (cfg : Config) (poses : List Pose)
    (seed solutionIn : List DReal)
    (hs : validateSeedState cfg seed) (ht : validateTarget cfg poses)
    (hbr : targetNormOf o cfg poses > reachableMaxNormOf o cfg) :
    searchPositionIK o cfg poses seed solutionIn =
      { success := true, errorCode := SUCCESS,
        solution := setJointMaxState cfg.chain cfg.elbowIdx
          (setJointMaxState cfg.chain cfg.shoulderIdx
            (setJointState o cfg.chain cfg.mountIdx
              (some (mountAngleOf o cfg poses - mountOffsetOf o cfg))
              seed)) } := by
  unfold searchPositionIK
  rw [if_neg (not_not_intro ⟨hs, ht⟩), if_pos hbr]

theorem searchPositionIK_near (o : Trig) (cfg : Config) (poses : List Pose)
    (seed solutionIn : List DReal)
    (hs : validateSeedState cfg seed) (ht : validateTarget cfg poses)
    (hbr1 : ¬(targetNormOf o cfg poses > reachableMaxNormOf o cfg))
    (hbr2 : targetNormOf o cfg poses < reachableMinNormOf o cfg) :
    searchPositionIK o cfg poses seed solutionIn =
      { success := true, errorCode := SUCCESS,
        solution := setJointMinState cfg.chain cfg.elbowIdx
          (setJointMinState cfg.chain cfg.shoulderIdx
            (setJointState o cfg.chain cfg.mountIdx
              (some (mountAngleOf o cfg poses - mountOffsetOf o cfg))
              seed)) } := by
  unfold searchPositionIK
  rw [if_neg (not_not_intro ⟨hs, ht⟩), if_neg hbr1, if_pos hbr2]

theorem searchPositionIK_mid (o : Trig) (cfg : Config) (poses : List Pose)
    (seed solutionIn : List DReal)
    (hs : validateSeedState cfg seed) (ht : validateTarget cfg poses)
    (hbr1 : ¬(targetNormOf o cfg poses > reachableMaxNormOf o cfg))
    (hbr2 : ¬(targetNormOf o cfg poses < reachableMinNormOf o cfg)) :
    searchPositionIK o cfg poses seed solutionIn =
      { success := true, errorCode := SUCCESS,
        solution := setJointState o cfg.chain cfg.shoulderIdx
          (shoulderAngleOf o cfg poses)
          (setJointState o cfg.chain cfg.mountIdx
            (some (mountAngleOf o cfg poses - mountOffsetOf o cfg))
            seed) } := by
  unfold searchPositionIK
  rw [if_neg (not_not_intro ⟨hs, ht⟩), if_neg hbr1, if_neg hbr2]

theorem searchPositionIK_untouched_slot (o : Trig) (cfg : Config)
    (poses : List Pose) (seed solutionIn : List DReal)
    (hs : validateSeedState cfg seed) (ht : validateTarget cfg poses)
    (i : Nat)
    (h1 : i ≠ cfg.mountIdx) (h2 : i ≠ cfg.shoulderIdx) (h3 : i ≠ cfg.elbowIdx)
    (h4 : ¬mimicTouched cfg.chain cfg.mountIdx i)
    (h5 : ¬mimicTouched cfg.chain cfg.shoulderIdx i) :
    (searchPositionIK o cfg poses seed solutionIn).solution[i]? = seed[i]? := by
  by_cases hbr1 : targetNormOf o cfg poses > reachableMaxNormOf o cfg
  · rw [searchPositionIK_far o cfg poses seed solutionIn hs ht hbr1]
    dsimp only
    rw [setJointMaxState_getElem_ne _ _ _ _ h3,
      setJointMaxState_getElem_ne _ _ _ _ h2,
      setJointState_untouched _ _ _ _ _ _ h1 h4]
  · by_cases hbr2 : targetNormOf o cfg poses < reachableMinNormOf o cfg
    · rw [searchPositionIK_near o cfg poses seed solutionIn hs ht hbr1 hbr2]
      dsimp only
      rw [setJointMinState_getElem_ne _ _ _ _ h3,
        setJointMinState_getElem_ne _ _ _ _ h2,
        setJointState_untouched _ _ _ _ _ _ h1 h4]
    · rw [searchPositionIK_mid o cfg poses seed solutionIn hs ht hbr1 hbr2]
      dsimp only
      rw [setJointState_untouched _ _ _ _ _ _ h2 h5,
        setJointState_untouched _ _ _ _ _ _ h1 h4]

/-! ## Claim theorems -/

/-- **C1.** For every solve call where the target distance from the shoulder
origin exceeds `reachableMax = |upperArm| + |forearm| - wristOffset`, the
returned joint-state vector has the shoulder entry equal to the shoulder
joint's `max_position` and the elbow entry equal to the elbow joint's
`max_position` exactly; when the distance is below `reachableMin`, both
entries equal the respective `min_position`. -/
theorem solve_unreachable_clamps_shoulder_elbow
    (o : Trig) (cfg : Config) (poses : List Pose)
    (seed solutionIn : List DReal)
    (hs : validateSeedState cfg seed) (ht : validateTarget cfg poses)
    (hsl : cfg.shoulderIdx < cfg.chain.length)
    (hel : cfg.elbowIdx < cfg.chain.length)
    (hne : cfg.shoulderIdx ≠ cfg.elbowIdx) :
    (targetNormOf o cfg poses > reachableMaxNormOf o cfg →
      (searchPositionIK o cfg poses seed solutionIn).success = true ∧
      slotAt (searchPositionIK o cfg poses seed solutionIn).solution
          cfg.shoulderIdx =
        some (cfg.chain.getD cfg.shoulderIdx default).limits.max_position ∧
      slotAt (searchPositionIK o cfg poses seed solutionIn).solution
          cfg.elbowIdx =
        some (cfg.chain.getD cfg.elbowIdx default).limits.max_position) ∧
    (reachableMinNormOf o cfg ≤ reachableMaxNormOf o cfg →
      targetNormOf o cfg poses < reachableMinNormOf o cfg →
      (searchPositionIK o cfg poses seed solutionIn).success = true ∧
      slotAt (searchPositionIK o cfg poses seed solutionIn).solution
          cfg.shoulderIdx =
        some (cfg.chain.getD cfg.shoulderIdx default).limits.min_position ∧
      slotAt (searchPositionIK o cfg poses seed solutionIn).solution
          cfg.elbowIdx =
        some (cfg.chain.getD cfg.elbowIdx default).limits.min_position) := by
  have hseedlen : seed.length = cfg.chain.length := hs
  constructor
  · intro hbr
    rw [searchPositionIK_far o cfg poses seed solutionIn hs ht hbr]
    dsimp only
    have hlen2 : cfg.elbowIdx <
        (setJointMaxState cfg.chain cfg.shoulderIdx
          (setJointState o cfg.chain cfg.mountIdx
            (some (mountAngleOf o cfg poses - mountOffsetOf o cfg))
            seed)).length := by
      rw [setJointMaxState_length, setJointState_length, hseedlen]
      exact hel
    have hlen1 : cfg.shoulderIdx <
        (setJointState o cfg.chain cfg.mountIdx
          (some (mountAngleOf o cfg poses - mountOffsetOf o cfg))
          seed).length := by
      rw [setJointState_length, hseedlen]
      exact hsl
    refine ⟨rfl, ?_, ?_⟩
    · exact slotAt_of_getElem _ _ _
        ((setJointMaxState_getElem_ne _ _ _ _ hne).trans
          (setJointMaxState_getElem_self _ _ _ hlen1))
    · exact slotAt_of_getElem _ _ _ (setJointMaxState_getElem_self _ _ _ hlen2)
  · intro hmm hbr2
    have hbr1 : ¬(targetNormOf o cfg poses > reachableMaxNormOf o cfg) :=
      not_lt.mpr (le_of_lt (lt_of_lt_of_le hbr2 hmm))
    rw [searchPositionIK_near o cfg poses seed solutionIn hs ht hbr1 hbr2]
    dsimp only
    have hlen2 : cfg.elbowIdx <
        (setJointMinState cfg.chain cfg.shoulderIdx
          (setJointState o cfg.chain cfg.mountIdx
            (some (mountAngleOf o cfg poses - mountOffsetOf o cfg))
            seed)).length := by
      rw [setJointMinState_length, setJointState_length, hseedlen]
      exact hel
    have hlen1 : cfg.shoulderIdx <
        (setJointState o cfg.chain cfg.mountIdx
          (some (mountAngleOf o cfg poses - mountOffsetOf o cfg))
          seed).length := by
      rw [setJointState_length, hseedlen]
      exact hsl
    refine ⟨rfl, ?_, ?_⟩
    · exact slotAt_of_getElem _ _ _
        ((setJointMinState_getElem_ne _ _ _ _ hne).trans
          (setJointMinState_getElem_self _ _ _ hlen1))
    · exact slotAt_of_getElem _ _ _ (setJointMinState_getElem_self _ _ _ hlen2)

/-- **C3.** For every solve call that passes validation, the mount (yaw) joint
angle computed by the solver equals `atan2(targetLocal.y, targetLocal.x)`
minus a fixed mechanical offset, the angle `atan2` of the y and x components
of the shoulder-to-effector vector; the value committed to the mount slot is
that angle put through the variable recovery and clamped to the mount's
limits.  The older revision `src/src/ik.cpp` computes the same command:
`mountAngle - mountReference - mountOffset` cancels to the same difference. -/
theorem solve_mount_angle_formula
    (o : Trig) (cfg : Config) (poses : List Pose)
    (seed solutionIn : List DReal)
    (hs : validateSeedState cfg seed) (ht : validateTarget cfg poses)
    (hnm : ∀ j ∈ cfg.chain, j.mimicMaster = none)
    (hml : cfg.mountIdx < cfg.chain.length)
    (h1 : cfg.mountIdx ≠ cfg.shoulderIdx) (h2 : cfg.mountIdx ≠ cfg.elbowIdx) :
    slotAt (searchPositionIK o cfg poses seed solutionIn).solution
        cfg.mountIdx =
      some (rclamp (o.cvp
          (getAngle o (targetLocalOf cfg poses).x (targetLocalOf cfg poses).y -
            getAngle o cfg.shoulderToEffector.x cfg.shoulderToEffector.y))
        (cfg.chain.getD cfg.mountIdx default).limits.min_position
        (cfg.chain.getD cfg.mountIdx default).limits.max_position) ∧
    ∀ t u s : Vec3,
      mountCommandIkCpp o t u s = getAngle o t.x t.y - getAngle o s.x s.y := by
  have hseedlen : seed.length = cfg.chain.length := hs
  have hmlen : cfg.mountIdx < seed.length := by rw [hseedlen]; exact hml
  have hsol1 : (setJointState o cfg.chain cfg.mountIdx
      (some (mountAngleOf o cfg poses - mountOffsetOf o cfg))
      seed)[cfg.mountIdx]? =
      some (some (rclamp (o.cvp
          (getAngle o (targetLocalOf cfg poses).x (targetLocalOf cfg poses).y -
            getAngle o cfg.shoulderToEffector.x cfg.shoulderToEffector.y))
        (cfg.chain.getD cfg.mountIdx default).limits.min_position
        (cfg.chain.getD cfg.mountIdx default).limits.max_position)) := by
    rw [setJointState_no_mimic o cfg.chain cfg.mountIdx _ seed
      (getD_mimicMaster_none cfg.chain hnm cfg.mountIdx)]
    rw [List.getElem?_set_self hmlen]
    rfl
  have hmt : ∀ jIdx, ¬mimicTouched cfg.chain jIdx cfg.mountIdx :=
    fun jIdx => not_mimicTouched_of_no_mimic cfg.chain hnm jIdx cfg.mountIdx
  constructor
  · by_cases hbr1 : targetNormOf o cfg poses > reachableMaxNormOf o cfg
    · rw [searchPositionIK_far o cfg poses seed solutionIn hs ht hbr1]
      dsimp only
      exact slotAt_of_getElem _ _ _
        (((setJointMaxState_getElem_ne _ _ _ _ h2).trans
          (setJointMaxState_getElem_ne _ _ _ _ h1)).trans hsol1)
    · by_cases hbr2 : targetNormOf o cfg poses < reachableMinNormOf o cfg
      · rw [searchPositionIK_near o cfg poses seed solutionIn hs ht hbr1 hbr2]
        dsimp only
        exact slotAt_of_getElem _ _ _
          (((setJointMinState_getElem_ne _ _ _ _ h2).trans
            (setJointMinState_getElem_ne _ _ _ _ h1)).trans hsol1)
      · rw [searchPositionIK_mid o cfg poses seed solutionIn hs ht hbr1 hbr2]
        dsimp only
        exact slotAt_of_getElem _ _ _
          ((setJointState_untouched _ _ _ _ _ _ h1
            (hmt cfg.shoulderIdx)).trans hsol1)
  · intro t u s
    unfold mountCommandIkCpp getAngle
    ring

/-- **C5.** For every call to `searchPositionIK` with a seed vector whose
length differs from the chain's joint count, or with a number of target poses
different from one (or different from the number of tip frames), the call
returns failure with error code `NO_IK_SOLUTION`; the embedding is total and
returns before touching the seed, so no out-of-bounds access occurs. -/
theorem solve_invalid_request_returns_no_ik_solution
    (o : Trig) (cfg : Config) (poses : List Pose)
    (seed solutionIn : List DReal)
    (h : seed.length ≠ cfg.chain.length ∨ poses.length ≠ 1 ∨
      cfg.tipCount ≠ poses.length) :
    (searchPositionIK o cfg poses seed solutionIn).success = false ∧
    (searchPositionIK o cfg poses seed solutionIn).errorCode =
      NO_IK_SOLUTION ∧
    (searchPositionIK o cfg poses seed solutionIn).solution = solutionIn := by
  have hv : ¬(validateSeedState cfg seed ∧ validateTarget cfg poses) := by
    unfold validateSeedState validateTarget
    rcases h with h | h | h <;> tauto
  rw [searchPositionIK_invalid o cfg poses seed solutionIn hv]
  exact ⟨rfl, rfl, rfl⟩

/-- **C8.** For every solve call that passes validation, `searchPositionIK`
never writes the wrist joint's slot: the returned wrist entry equals the
corresponding seed entry (when the wrist slot is none of the mount, shoulder
or elbow slots and is not reachable through a mimic relation of the written
joints), and only the mount, shoulder, elbow and mimic-related slots are
modified. -/
theorem solve_wrist_slot_unmodified
    (o : Trig) (cfg : Config) (poses : List Pose)
    (seed solutionIn : List DReal)
    (hs : validateSeedState cfg seed) (ht : validateTarget cfg poses)
    (hw1 : cfg.wristIdx ≠ cfg.mountIdx) (hw2 : cfg.wristIdx ≠ cfg.shoulderIdx)
    (hw3 : cfg.wristIdx ≠ cfg.elbowIdx)
    (hw4 : ¬mimicTouched cfg.chain cfg.mountIdx cfg.wristIdx)
    (hw5 : ¬mimicTouched cfg.chain cfg.shoulderIdx cfg.wristIdx) :
    slotAt (searchPositionIK o cfg poses seed solutionIn).solution
        cfg.wristIdx =
      slotAt seed cfg.wristIdx ∧
    ∀ i, i ≠ cfg.mountIdx → i ≠ cfg.shoulderIdx → i ≠ cfg.elbowIdx →
      ¬mimicTouched cfg.chain cfg.mountIdx i →
      ¬mimicTouched cfg.chain cfg.shoulderIdx i →
      (searchPositionIK o cfg poses seed solutionIn).solution[i]? =
        seed[i]? :=
  ⟨slotAt_congr _ _ _
    (searchPositionIK_untouched_slot o cfg poses seed solutionIn hs ht
      cfg.wristIdx hw1 hw2 hw3 hw4 hw5),
   fun i a b c d e =>
    searchPositionIK_untouched_slot o cfg poses seed solutionIn hs ht
      i a b c d e⟩

/-- **C9.** For every solve call that fails seed or target validation,
`searchPositionIK` returns before performing any write to the caller's
solution vector: on the `NO_IK_SOLUTION` path the solution output is exactly
the value the caller passed in. -/
theorem solve_validation_failure_atomic
    (o : Trig) (cfg : Config) (poses : List Pose)
    (seed solutionIn : List DReal)
    (h : ¬(validateSeedState cfg seed ∧ validateTarget cfg poses)) :
    (searchPositionIK o cfg poses seed solutionIn).solution = solutionIn ∧
    (searchPositionIK o cfg poses seed solutionIn).success = false := by
  rw [searchPositionIK_invalid o cfg poses seed solutionIn h]
  exact ⟨rfl, rfl⟩

/-- **C6.** For every mimic joint and every master-state value in range, the
value written into the joint-state vector at the mimic joint's index equals
`clamp(factor * masterState + offset, slaveMin, slaveMax)` exactly, where
`factor` and `offset` are that mimic joint's affine parameters and
`slaveMin`/`slaveMax` its position limits. -/
theorem setJointState_sibling_mimic_affine
    (o : Trig) (chain : Chain) (jIdx mIdx sIdx : Nat) (a masterState : ℚ)
    (st : List DReal)
    (hj : (chain.getD jIdx default).mimicMaster = some mIdx)
    (hraw : mimicRaw chain jIdx (o.cvp a) = some masterState)
    (hr1 : (chain.getD mIdx default).limits.min_position ≤ masterState)
    (hr2 : masterState ≤ (chain.getD mIdx default).limits.max_position)
    (hs1 : sIdx ≠ jIdx)
    (hs2 : (chain.getD sIdx default).mimicMaster = some mIdx)
    (hschain : sIdx < chain.length) (hslen : sIdx < st.length) :
    (setJointState o chain jIdx (some a) st)[sIdx]? =
      some (some (rclamp
        ((chain.getD sIdx default).mimicFactor * masterState +
          (chain.getD sIdx default).mimicOffset)
        (chain.getD sIdx default).limits.min_position
        (chain.getD sIdx default).limits.max_position)) := by
  rw [setJointState_some, applyMimic_some_master chain jIdx mIdx _ _ hj, hraw]
  have hms : dclamp (some masterState)
      (chain.getD mIdx default).limits.min_position
      (chain.getD mIdx default).limits.max_position = some masterState := by
    simp only [dclamp, Option.map_some']
    rw [rclamp_eq_self _ _ _ hr1 hr2]
  rw [hms]
  have hslen2 : sIdx <
      ((st.set jIdx (some (rclamp (o.cvp a)
          (chain.getD jIdx default).limits.min_position
          (chain.getD jIdx default).limits.max_position))).set mIdx
        (some masterState)).length := by
    simpa using hslen
  rw [mimicPropagate_write chain jIdx mIdx (some masterState) _ sIdx hschain
    hslen2 ⟨hs1, hs2⟩]
  simp only [Option.map_some', dclamp]
  rw [mul_comm]

/-- **C10.** When `setJointState` is invoked on a joint that is itself a mimic
(has a master), the master joint's slot is updated from the slave's computed
state via the inverse affine relation `(state - offset) / factor`, and every
other mimic joint of that master is then set to
`clamp(masterState * factor + offset, its limits)` — propagation runs
slave-to-master and then master-to-siblings. -/
theorem setJointState_updates_master_then_siblings
    (o : Trig) (chain : Chain) (jIdx mIdx : Nat) (a masterState : ℚ)
    (st : List DReal)
    (hj : (chain.getD jIdx default).mimicMaster = some mIdx)
    (hraw : mimicRaw chain jIdx (o.cvp a) = some masterState)
    (hr1 : (chain.getD mIdx default).limits.min_position ≤ masterState)
    (hr2 : masterState ≤ (chain.getD mIdx default).limits.max_position)
    (_hmne : mIdx ≠ jIdx) (hmlen : mIdx < st.length)
    (hmm : (chain.getD mIdx default).mimicMaster = none) :
    (setJointState o chain jIdx (some a) st)[mIdx]? =
      some (some masterState) ∧
    ∀ sIdx, sIdx ≠ jIdx → sIdx ≠ mIdx →
      (chain.getD sIdx default).mimicMaster = some mIdx →
      sIdx < chain.length → sIdx < st.length →
      (setJointState o chain jIdx (some a) st)[sIdx]? =
        some (some (rclamp
          (masterState * (chain.getD sIdx default).mimicFactor +
            (chain.getD sIdx default).mimicOffset)
          (chain.getD sIdx default).limits.min_position
          (chain.getD sIdx default).limits.max_position)) := by
  have hms : dclamp (some masterState)
      (chain.getD mIdx default).limits.min_position
      (chain.getD mIdx default).limits.max_position = some masterState := by
    simp only [dclamp, Option.map_some']
    rw [rclamp_eq_self _ _ _ hr1 hr2]
  constructor
  · rw [setJointState_some, applyMimic_some_master chain jIdx mIdx _ _ hj,
      hraw, hms]
    rw [mimicPropagate_untouched chain jIdx mIdx _ _ mIdx
      (by rw [hmm]; tauto)]
    have hmlen2 : mIdx < (st.set jIdx (some (rclamp (o.cvp a)
        (chain.getD jIdx default).limits.min_position
        (chain.getD jIdx default).limits.max_position))).length := by
      simpa using hmlen
    exact List.getElem?_set_self hmlen2
  · intro sIdx hsj hsm hs2 hschain hslen
    rw [setJointState_some, applyMimic_some_master chain jIdx mIdx _ _ hj,
      hraw, hms]
    have hslen2 : sIdx <
        ((st.set jIdx (some (rclamp (o.cvp a)
            (chain.getD jIdx default).limits.min_position
            (chain.getD jIdx default).limits.max_position))).set mIdx
          (some masterState)).length := by
      simpa using hslen
    rw [mimicPropagate_write chain jIdx mIdx (some masterState) _ sIdx hschain
      hslen2 ⟨hsj, hs2⟩]
    simp only [Option.map_some', dclamp]

/-- **C2 (amended).** For every valid solve request on a chain with no mimic
relations and well-ordered limits, every entry of the returned vector either
lies within its joint's `[min_position, max_position]` or is passed through
from the seed unchanged (slots the solver writes are clamped into limits;
slots it does not write — such as the wrist slot — keep the seed value). -/
theorem solve_slot_in_limits_or_seed
    (o : Trig) (cfg : Config) (poses : List Pose)
    (seed solutionIn : List DReal)
    (hs : validateSeedState cfg seed) (ht : validateTarget cfg poses)
    (hnm : ∀ j ∈ cfg.chain, j.mimicMaster = none)
    (hlim : ∀ j ∈ cfg.chain,
      j.limits.min_position ≤ j.limits.max_position)
    (i : Nat) (hi : i < cfg.chain.length) :
    inLimits (cfg.chain.getD i default)
        (slotAt (searchPositionIK o cfg poses seed solutionIn).solution i) ∨
      slotAt (searchPositionIK o cfg poses seed solutionIn).solution i =
        slotAt seed i := by
  have hseedlen : seed.length = cfg.chain.length := hs
  have hlimi := getD_limits_le cfg.chain hlim i hi
  have compose : ∀ st' st : List DReal,
      (st'[i]? = st[i]? ∨
        inLimits (cfg.chain.getD i default) (slotAt st' i)) →
      (inLimits (cfg.chain.getD i default) (slotAt st i) ∨
        slotAt st i = slotAt seed i) →
      (inLimits (cfg.chain.getD i default) (slotAt st' i) ∨
        slotAt st' i = slotAt seed i) := by
    intro st' st h1 h2
    rcases h1 with h1 | h1
    · rw [slotAt_congr st' st i h1]; exact h2
    · exact Or.inl h1
  have key : ∀ (jIdx : Nat) (aq : ℚ) (st : List DReal), i < st.length →
      ((setJointState o cfg.chain jIdx (some aq) st)[i]? = st[i]? ∨
        inLimits (cfg.chain.getD i default)
          (slotAt (setJointState o cfg.chain jIdx (some aq) st) i)) := by
    intro jIdx aq st hilen
    by_cases hij : i = jIdx
    · subst hij
      right
      rw [setJointState_no_mimic o cfg.chain i aq st
        (getD_mimicMaster_none cfg.chain hnm i)]
      rw [slotAt_of_getElem _ _ _ (List.getElem?_set_self hilen)]
      exact inLimits_rclamp _ _ hlimi
    · left
      exact setJointState_untouched o cfg.chain jIdx (some aq) st i hij
        (not_mimicTouched_of_no_mimic cfg.chain hnm jIdx i)
  have keyMax : ∀ (jIdx : Nat) (st : List DReal), i < st.length →
      ((setJointMaxState cfg.chain jIdx st)[i]? = st[i]? ∨
        inLimits (cfg.chain.getD i default)
          (slotAt (setJointMaxState cfg.chain jIdx st) i)) := by
    intro jIdx st hilen
    by_cases hij : i = jIdx
    · subst hij
      right
      rw [slotAt_of_getElem _ _ _ (setJointMaxState_getElem_self _ _ _ hilen)]
      exact inLimits_max _ hlimi
    · left
      exact setJointMaxState_getElem_ne _ _ _ _ hij
  have keyMin : ∀ (jIdx : Nat) (st : List DReal), i < st.length →
      ((setJointMinState cfg.chain jIdx st)[i]? = st[i]? ∨
        inLimits (cfg.chain.getD i default)
          (slotAt (setJointMinState cfg.chain jIdx st) i)) := by
    intro jIdx st hilen
    by_cases hij : i = jIdx
    · subst hij
      right
      rw [slotAt_of_getElem _ _ _ (setJointMinState_getElem_self _ _ _ hilen)]
      exact inLimits_min _ hlimi
    · left
      exact setJointMinState_getElem_ne _ _ _ _ hij
  have hiseed : i < seed.length := by rw [hseedlen]; exact hi
  have hbase : inLimits (cfg.chain.getD i default) (slotAt seed i) ∨
      slotAt seed i = slotAt seed i := Or.inr rfl
  have hsol1 := compose _ _
    (key cfg.mountIdx (mountAngleOf o cfg poses - mountOffsetOf o cfg) seed
      hiseed) hbase
  have hisol1 : i < (setJointState o cfg.chain cfg.mountIdx
      (some (mountAngleOf o cfg poses - mountOffsetOf o cfg)) seed).length := by
    rw [setJointState_length]; exact hiseed
  by_cases hbr1 : targetNormOf o cfg poses > reachableMaxNormOf o cfg
  · rw [searchPositionIK_far o cfg poses seed solutionIn hs ht hbr1]
    dsimp only
    refine compose _ _ (keyMax cfg.elbowIdx _ ?_)
      (compose _ _ (keyMax cfg.shoulderIdx _ hisol1) hsol1)
    rw [setJointMaxState_length]; exact hisol1
  · by_cases hbr2 : targetNormOf o cfg poses < reachableMinNormOf o cfg
    · rw [searchPositionIK_near o cfg poses seed solutionIn hs ht hbr1 hbr2]
      dsimp only
      refine compose _ _ (keyMin cfg.elbowIdx _ ?_)
        (compose _ _ (keyMin cfg.shoulderIdx _ hisol1) hsol1)
      rw [setJointMinState_length]; exact hisol1
    · rw [searchPositionIK_mid o cfg poses seed solutionIn hs ht hbr1 hbr2]
      dsimp only
      cases hA : shoulderAngleOf o cfg poses with
      | none => rw [setJointState_none]; exact hsol1
      | some q => exact compose _ _ (key cfg.shoulderIdx q _ hisol1) hsol1

/-- **C4.** `IKPlugin::lawOfCosines` passes its cosine argument to `acos`
without any clamping: at `(a, b, c) = (1, 1, 3)` the argument
`(a*a + b*b - c*c) / (2*a*b)` is `-7/2`, strictly outside `[-1, 1]`, and the
result is NaN for every oracle — no clamping into `[-1, 1]` takes place in
the code. -/
theorem lawOfCosines_arg_not_clamped :
    lawOfCosinesArg 1 1 3 = -7/2 ∧
    ¬(-1 ≤ lawOfCosinesArg 1 1 3) ∧
    ∀ o : Trig, lawOfCosines o 1 1 3 = none := by
  refine ⟨by norm_num [lawOfCosinesArg], by norm_num [lawOfCosinesArg], ?_⟩
  intro o
  norm_num [lawOfCosines, lawOfCosinesArg, Trig.acosD]

theorem mimicStep_or (chain : Chain) (jIdx mIdx : Nat) (m : ℚ)
    (st : List DReal) (s i : Nat) :
    (mimicStep chain jIdx mIdx (some m) st s)[i]? = st[i]? ∨
      ∃ q : ℚ, (mimicStep chain jIdx mIdx (some m) st s)[i]? =
        some (some q) := by
  simp only [mimicStep]
  split
  · rcases getElem_set_or st s
        (dclamp ((some m).map fun v =>
          v * (chain.getD s default).mimicFactor +
            (chain.getD s default).mimicOffset)
          (chain.getD s default).limits.min_position
          (chain.getD s default).limits.max_position) i with h | h
    · exact Or.inl h
    · refine Or.inr ⟨rclamp (m * (chain.getD s default).mimicFactor +
          (chain.getD s default).mimicOffset)
        (chain.getD s default).limits.min_position
        (chain.getD s default).limits.max_position, ?_⟩
      rw [h]
      simp [dclamp]
  · exact Or.inl rfl

theorem foldl_mimicStep_or (chain : Chain) (jIdx mIdx : Nat) (m : ℚ)
    (L : List Nat) :
    ∀ (st : List DReal) (i : Nat),
      (L.foldl (mimicStep chain jIdx mIdx (some m)) st)[i]? = st[i]? ∨
      ∃ q : ℚ, (L.foldl (mimicStep chain jIdx mIdx (some m)) st)[i]? =
        some (some q) := by
  induction L with
  | nil => intro st i; exact Or.inl rfl
  | cons a L ih =>
    intro st i
    simp only [List.foldl_cons]
    rcases ih (mimicStep chain jIdx mIdx (some m) st a) i with h | h
    · rcases mimicStep_or chain jIdx mIdx m st a i with h' | h'
      · exact Or.inl (h.trans h')
      · exact Or.inr (Exists.imp (fun q hq => h.trans hq) h')
    · exact Or.inr h

theorem getD_mem_of_mimicMaster_some (chain : Chain) (jIdx mIdx : Nat)
    (h : (chain.getD jIdx default).mimicMaster = some mIdx) :
    chain.getD jIdx default ∈ chain := by
  by_cases hj : jIdx < chain.length
  · rw [List.getD_eq_getElem chain default hj]
    exact List.getElem_mem hj
  · rw [List.getD_eq_default chain default (le_of_not_lt hj)] at h
    exact absurd h (by simp [default])

/-- **C7 (amended).** Joints driven to their limit positions by the
reachability clamping write only their own slot — `setJointMinState` and
`setJointMaxState` perform no mimic propagation — while a NaN angle makes
`setJointState` return without writing anything; moreover, when every mimic
factor in the chain is nonzero, `setJointState` never writes NaN: every slot
it changes receives an ordinary value. -/
theorem limit_writes_skip_mimics_and_nan_never_written :
    (∀ (o : Trig) (chain : Chain) (jIdx : Nat) (st : List DReal),
      setJointState o chain jIdx none st = st) ∧
    (∀ (chain : Chain) (jIdx i : Nat) (st : List DReal), i ≠ jIdx →
      (setJointMaxState chain jIdx st)[i]? = st[i]? ∧
      (setJointMinState chain jIdx st)[i]? = st[i]?) ∧
    (∀ (o : Trig) (chain : Chain) (jIdx : Nat) (a : DReal)
      (st : List DReal) (i : Nat), (∀ j ∈ chain, j.mimicFactor ≠ 0) →
      (setJointState o chain jIdx a st)[i]? = st[i]? ∨
      ∃ q : ℚ, (setJointState o chain jIdx a st)[i]? = some (some q)) := by
  refine ⟨fun o chain jIdx st => rfl, ?_, ?_⟩
  · intro chain jIdx i st hne
    exact ⟨setJointMaxState_getElem_ne chain jIdx st i hne,
      setJointMinState_getElem_ne chain jIdx st i hne⟩
  · intro o chain jIdx a st i hf
    cases a with
    | none => exact Or.inl rfl
    | some a =>
      rw [setJointState_some]
      have hstep1 := getElem_set_or st jIdx
        (some (rclamp (o.cvp a)
          (chain.getD jIdx default).limits.min_position
          (chain.getD jIdx default).limits.max_position)) i
      cases hm : (chain.getD jIdx default).mimicMaster with
      | none =>
        rw [applyMimic_none_master chain jIdx _ _ hm]
        rcases hstep1 with h | h
        · exact Or.inl h
        · exact Or.inr ⟨_, h⟩
      | some mIdx =>
        have hfj : (chain.getD jIdx default).mimicFactor ≠ 0 :=
          hf _ (getD_mem_of_mimicMaster_some chain jIdx mIdx hm)
        have hraw : mimicRaw chain jIdx (o.cvp a) =
            some ((o.cvp a - (chain.getD jIdx default).mimicOffset) /
              (chain.getD jIdx default).mimicFactor) := by
          unfold mimicRaw
          rw [if_neg hfj]
        rw [applyMimic_some_master chain jIdx mIdx _ _ hm, hraw]
        have hdc : dclamp (some ((o.cvp a -
            (chain.getD jIdx default).mimicOffset) /
              (chain.getD jIdx default).mimicFactor))
            (chain.getD mIdx default).limits.min_position
            (chain.getD mIdx default).limits.max_position =
            some (rclamp ((o.cvp a -
              (chain.getD jIdx default).mimicOffset) /
                (chain.getD jIdx default).mimicFactor)
              (chain.getD mIdx default).limits.min_position
              (chain.getD mIdx default).limits.max_position) := by
          simp [dclamp]
        rw [hdc]
        have hfold := foldl_mimicStep_or chain jIdx mIdx
          (rclamp ((o.cvp a - (chain.getD jIdx default).mimicOffset) /
              (chain.getD jIdx default).mimicFactor)
            (chain.getD mIdx default).limits.min_position
            (chain.getD mIdx default).limits.max_position)
          (List.range chain.length)
          (((st.set jIdx (some (rclamp (o.cvp a)
              (chain.getD jIdx default).limits.min_position
              (chain.getD jIdx default).limits.max_position))).set mIdx
            (some ((o.cvp a - (chain.getD jIdx default).mimicOffset) /
              (chain.getD jIdx default).mimicFactor)))) i
        unfold mimicPropagate
        rcases hfold with h | h
        · rcases getElem_set_or
              (st.set jIdx (some (rclamp (o.cvp a)
                (chain.getD jIdx default).limits.min_position
                (chain.getD jIdx default).limits.max_position))) mIdx
              (some ((o.cvp a - (chain.getD jIdx default).mimicOffset) /
                (chain.getD jIdx default).mimicFactor)) i with h2 | h2
          · rcases hstep1 with h1 | h1
            · exact Or.inl ((h.trans h2).trans h1)
            · exact Or.inr ⟨_, (h.trans h2).trans h1⟩
          · exact Or.inr ⟨_, h.trans h2⟩
        · exact Or.inr h

/-- **C2 (counterexample).** A valid solve request whose seed carries an
out-of-limits wrist value returns that value unchanged: the wrist joint of
`cfgW` has limits `[-5, 5]`, the seed entry is `20`, the call succeeds, and
the returned wrist entry `20` lies outside the joint's limits. -/
theorem solve_returns_out_of_limits_wrist_seed :
    (searchPositionIK trigW cfgW [⟨1, 0, 0⟩]
        [some 0, some 0, some 0, some 20] []).success = true ∧
    slotAt (searchPositionIK trigW cfgW [⟨1, 0, 0⟩]
        [some 0, some 0, some 0, some 20] []).solution 3 = some 20 ∧
    ¬inLimits (cfgW.chain.getD 3 default)
      (slotAt (searchPositionIK trigW cfgW [⟨1, 0, 0⟩]
        [some 0, some 0, some 0, some 20] []).solution 3) := by
  norm_num [searchPositionIK, validateSeedState, validateTarget,
    setJointState, applyMimic, mimicRaw, mimicPropagate, mimicStep,
    setJointMaxState, setJointMinState, targetNormOf, targetLocalOf,
    targetWorldOf, mountAngleOf, mountOffsetOf, reachableMaxNormOf,
    reachableMinNormOf, maxNormSpec, minNormSpec, shoulderAngleOf,
    lawOfCosines, lawOfCosinesArg, Trig.acosD, Vec3.norm, Vec3.sub, getAngle,
    rclamp, dclamp, slotAt, inLimits, trigW, cfgW, chainW, SUCCESS,
    List.getD]

/-- **C7 (counterexample).** In `cfgC7` the shoulder joint (index 1) mimics
the joint at index 3, the target is out of reach, so the shoulder is driven
to its `max_position` through `setJointMaxState` — and the master's slot 3
still holds the seed value `4` afterwards: no mimic propagation ran for the
limit-clamped joint, and `4` differs from the inverse-affine value
propagation would have produced. -/
theorem solve_limit_clamp_leaves_mimic_slot_stale :
    (cfgC7.chain.getD 1 default).mimicMaster = some 3 ∧
    (searchPositionIK trigW cfgC7 [⟨1, 0, 0⟩]
        [some 0, some 0, some 0, some 4] []).success = true ∧
    slotAt (searchPositionIK trigW cfgC7 [⟨1, 0, 0⟩]
        [some 0, some 0, some 0, some 4] []).solution 1 =
      some (cfgC7.chain.getD 1 default).limits.max_position ∧
    slotAt (searchPositionIK trigW cfgC7 [⟨1, 0, 0⟩]
        [some 0, some 0, some 0, some 4] []).solution 3 = some 4 ∧
    mimicRaw cfgC7.chain 1
        (cfgC7.chain.getD 1 default).limits.max_position ≠ some 4 := by
  norm_num [searchPositionIK, validateSeedState, validateTarget,
    setJointState, applyMimic, mimicRaw, mimicPropagate, mimicStep,
    setJointMaxState, setJointMinState, targetNormOf, targetLocalOf,
    targetWorldOf, mountAngleOf, mountOffsetOf, reachableMaxNormOf,
    reachableMinNormOf, maxNormSpec, minNormSpec, shoulderAngleOf,
    lawOfCosines, lawOfCosinesArg, Trig.acosD, Vec3.norm, Vec3.sub, getAngle,
    rclamp, dclamp, slotAt, inLimits, trigW, cfgC7, cfgW, chainC7, SUCCESS,
    List.getD]

/-! ## Witnesses -/

/-- Witness for C1 at a concrete out-of-reach request against `cfgW`. -/
theorem solve_unreachable_clamps_shoulder_elbow_witness :
    (searchPositionIK trigW cfgW [⟨1, 0, 0⟩]
        [some 0, some 0, some 0, some 0] []).success = true ∧
    slotAt (searchPositionIK trigW cfgW [⟨1, 0, 0⟩]
        [some 0, some 0, some 0, some 0] []).solution cfgW.shoulderIdx =
      some 2 ∧
    slotAt (searchPositionIK trigW cfgW [⟨1, 0, 0⟩]
        [some 0, some 0, some 0, some 0] []).solution cfgW.elbowIdx =
      some 3 := by
  have h := (solve_unreachable_clamps_shoulder_elbow trigW cfgW [⟨1, 0, 0⟩]
    [some 0, some 0, some 0, some 0] []
    (by simp [validateSeedState, cfgW, chainW])
    (by simp [validateTarget, cfgW])
    (by norm_num [cfgW, chainW])
    (by norm_num [cfgW, chainW])
    (by norm_num [cfgW])).1
    (by norm_num [targetNormOf, targetLocalOf, targetWorldOf, Vec3.norm,
      Vec3.sub, reachableMaxNormOf, maxNormSpec, trigW, cfgW, List.getD])
  refine ⟨h.1, ?_, ?_⟩
  · rw [h.2.1]; norm_num [cfgW, chainW, List.getD]
  · rw [h.2.2]; norm_num [cfgW, chainW, List.getD]

/-- Witness for the amended C2 at the wrist slot of a concrete request. -/
theorem solve_slot_in_limits_or_seed_witness :
    inLimits (cfgW.chain.getD 3 default)
        (slotAt (searchPositionIK trigW cfgW [⟨1, 0, 0⟩]
          [some 0, some 0, some 0, some 20] []).solution 3) ∨
      slotAt (searchPositionIK trigW cfgW [⟨1, 0, 0⟩]
          [some 0, some 0, some 0, some 20] []).solution 3 =
        slotAt [some 0, some 0, some 0, some 20] 3 :=
  solve_slot_in_limits_or_seed trigW cfgW [⟨1, 0, 0⟩]
    [some 0, some 0, some 0, some 20] []
    (by simp [validateSeedState, cfgW, chainW])
    (by simp [validateTarget, cfgW])
    (by simp [cfgW, chainW])
    (by norm_num [cfgW, chainW])
    3 (by norm_num [cfgW, chainW])

/-- Witness for C3 at a concrete request against `cfgW`. -/
theorem solve_mount_angle_formula_witness :
    slotAt (searchPositionIK trigW cfgW [⟨1, 0, 0⟩]
        [some 0, some 0, some 0, some 0] []).solution cfgW.mountIdx =
      some 0 := by
  have h := (solve_mount_angle_formula trigW cfgW [⟨1, 0, 0⟩]
    [some 0, some 0, some 0, some 0] []
    (by simp [validateSeedState, cfgW, chainW])
    (by simp [validateTarget, cfgW])
    (by simp [cfgW, chainW])
    (by norm_num [cfgW, chainW])
    (by norm_num [cfgW])
    (by norm_num [cfgW])).1
  rw [h]
  norm_num [rclamp, getAngle, trigW, cfgW, chainW, targetLocalOf,
    targetWorldOf, Vec3.sub, List.getD]

/-- Witness for C5 with a seed of length 1 against the 4-joint `cfgW`. -/
theorem solve_invalid_request_witness :
    (searchPositionIK trigW cfgW [⟨1, 0, 0⟩] [some 0] []).success = false ∧
    (searchPositionIK trigW cfgW [⟨1, 0, 0⟩] [some 0] []).errorCode =
      NO_IK_SOLUTION ∧
    (searchPositionIK trigW cfgW [⟨1, 0, 0⟩] [some 0] []).solution = [] :=
  solve_invalid_request_returns_no_ik_solution trigW cfgW [⟨1, 0, 0⟩]
    [some 0] [] (Or.inl (by simp [cfgW, chainW]))

/-- Witness for C6 on the concrete mimic chain `chainM`. -/
theorem setJointState_sibling_mimic_affine_witness :
    (setJointState trigW chainM 0 (some 3) [some 0, some 0, some 0])[1]? =
      some (some 4) := by
  have h := setJointState_sibling_mimic_affine trigW chainM 0 2 1 3 1
    [some 0, some 0, some 0]
    (by simp [chainM, List.getD])
    (by norm_num [mimicRaw, chainM, trigW, List.getD])
    (by norm_num [chainM, List.getD])
    (by norm_num [chainM, List.getD])
    (by norm_num)
    (by simp [chainM, List.getD])
    (by norm_num [chainM])
    (by norm_num)
  rw [h]
  norm_num [chainM, rclamp, List.getD]

/-- Witness for the amended C7 on concrete inputs. -/
theorem limit_writes_skip_mimics_witness :
    setJointState trigW chainC7 0 none [some 1] = [some 1] ∧
    (setJointMaxState chainC7 1 [some 3, some 9])[0]? = some (some 3) := by
  constructor
  · exact limit_writes_skip_mimics_and_nan_never_written.1 trigW chainC7 0
      [some 1]
  · rw [(limit_writes_skip_mimics_and_nan_never_written.2.1 chainC7 1 0
      [some 3, some 9] (by norm_num)).1]
    rfl

/-- Witness for C8 at a concrete request against `cfgW`. -/
theorem solve_wrist_slot_unmodified_witness :
    slotAt (searchPositionIK trigW cfgW [⟨1, 0, 0⟩]
        [some 0, some 0, some 0, some 7] []).solution cfgW.wristIdx =
      some 7 := by
  have h := (solve_wrist_slot_unmodified trigW cfgW [⟨1, 0, 0⟩]
    [some 0, some 0, some 0, some 7] []
    (by simp [validateSeedState, cfgW, chainW])
    (by simp [validateTarget, cfgW])
    (by norm_num [cfgW]) (by norm_num [cfgW]) (by norm_num [cfgW])
    (by simp [mimicTouched, mimicTouchedB, cfgW, chainW, List.getD])
    (by simp [mimicTouched, mimicTouchedB, cfgW, chainW, List.getD])).1
  rw [h]
  norm_num [slotAt, cfgW, List.getD]

/-- Witness for C9 with an empty pose list. -/
theorem solve_validation_failure_atomic_witness :
    (searchPositionIK trigW cfgW [] [some 0, some 0, some 0, some 0]
        [some 9]).solution = [some 9] ∧
    (searchPositionIK trigW cfgW [] [some 0, some 0, some 0, some 0]
        [some 9]).success = false :=
  solve_validation_failure_atomic trigW cfgW []
    [some 0, some 0, some 0, some 0] [some 9]
    (by simp [validateSeedState, validateTarget, cfgW, chainW])

/-- Witness for C10 on the concrete mimic chain `chainM` with a command
whose inverse-affine master value is in range but whose sibling value gets
clamped. -/
theorem setJointState_updates_master_witness :
    (setJointState trigW chainM 0 (some 5) [some 0, some 0, some 0])[2]? =
      some (some 2) ∧
    (setJointState trigW chainM 0 (some 5) [some 0, some 0, some 0])[1]? =
      some (some 5) := by
  have h := setJointState_updates_master_then_siblings trigW chainM 0 2 5 2
    [some 0, some 0, some 0]
    (by simp [chainM, List.getD])
    (by norm_num [mimicRaw, chainM, trigW, List.getD])
    (by norm_num [chainM, List.getD])
    (by norm_num [chainM, List.getD])
    (by norm_num)
    (by norm_num)
    (by simp [chainM, List.getD])
  refine ⟨h.1, ?_⟩
  rw [h.2 1 (by norm_num) (by norm_num) (by simp [chainM, List.getD])
    (by norm_num [chainM]) (by norm_num)]
  norm_num [chainM, rclamp, List.getD]

end Str1ker
